import Mathlib

/-
  Verification development for the tic knowledge-base chat backend.

  The Go sources are shallowly embedded as Lean definitions:
  * strings are Lean `String` (Go byte lengths are modelled with
    `String.utf8ByteSize`, which agrees with Go's `len` on UTF-8 strings);
  * the relational store (gorm) is an explicit in-memory state record; rows
    receive consecutive numeric ids, and `ORDER BY created_at DESC` is
    modelled as reversal of insertion order (gorm fills `created_at`
    monotonically on `Create`);
  * external network calls (OpenAI / Gemini completion, embedding requests,
    the Qdrant vector store) are oracles: function-valued parameters that
    may return `Except.error`, mirroring the Go error returns;
  * a gorm transaction is modelled by returning the pre-transaction state
    whenever the Go code would `Rollback`.
-/

namespace Tic

/-! ## Text utilities

`strings.Fields`, `strings.TrimSpace` and the word-chunking loop of
`OpenAIService.ChunkText` (src/unnamed/part_007, lines 162-194). -/

/-- Go `unicode.IsSpace` restricted to the characters that actually occur;
modelled with `Char.isWhitespace`. -/
def isSpaceC (c : Char) : Bool := c.isWhitespace

/-- Worker for `fieldsCh`: scans the character list, accumulating the
current word in reverse. -/
def fieldsAux : List Char → List Char → List (List Char)
  | [], cur => if cur.isEmpty then [] else [cur.reverse]
  | c :: cs, cur =>
    if isSpaceC c then
      if cur.isEmpty then fieldsAux cs [] else cur.reverse :: fieldsAux cs []
    else fieldsAux cs (c :: cur)

/-- Go `strings.Fields` on the character level: maximal runs of
non-whitespace characters, in order. -/
def fieldsCh (l : List Char) : List (List Char) := fieldsAux l []

/-- Go `strings.Fields`. -/
def strFields (s : String) : List String := (fieldsCh s.data).map String.mk

/-- Go `strings.TrimSpace` on the character level: drop whitespace from both
ends. -/
def trimCh (l : List Char) : List Char :=
  ((l.dropWhile isSpaceC).reverse.dropWhile isSpaceC).reverse

/-- Go `strings.TrimSpace`. -/
def trimSpace (s : String) : String := String.mk (trimCh s.data)

/-- The loop body of `OpenAIService.ChunkText` (part_007 lines 175-191):
processes the remaining words, carrying the finished chunks and the current
chunk builder.  Lengths are byte lengths (`String.utf8ByteSize`), matching
Go's `len` and `strings.Builder.Len`. -/
def chunkLoop (m : Int) : List String → List String → String → List String
  | [], chunks, cur =>
    if cur.length > 0 then chunks ++ [trimSpace cur] else chunks
  | w :: ws, chunks, cur =>
    if cur.length > 0 ∧ m < (cur.utf8ByteSize : Int) + (w.utf8ByteSize : Int) + 1 then
      chunkLoop m ws (chunks ++ [trimSpace cur]) w
    else
      chunkLoop m ws chunks (if cur.length > 0 then cur ++ " " ++ w else w)

/-- `OpenAIService.ChunkText` (part_007 lines 162-194): split text into
word-aligned chunks of at most `maxChunkSize` bytes (defaulting to 1000 when
the requested size is not positive). -/
def ChunkText (text : String) (maxChunkSize : Int) : List String :=
  let m : Int := if maxChunkSize ≤ 0 then 1000 else maxChunkSize
  let words := strFields text
  if words.isEmpty then [] else chunkLoop m words [] ""

/-! ### Word-level facts about `fieldsCh`, `trimCh` and `chunkLoop` -/

/-- A well-formed word: non-empty and containing no whitespace.  Exactly the
shape of the elements `strings.Fields` produces. -/
def wfWord (w : List Char) : Prop := w ≠ [] ∧ ∀ c ∈ w, isSpaceC c = false

/-- Joining words with single spaces; the shape of the chunk builder in
`ChunkText`. -/
def joinWords : List (List Char) → List Char
  | [] => []
  | [w] => w
  | w :: ws => w ++ ' ' :: joinWords ws

theorem joinWords_cons_cons (w x : List Char) (ws : List (List Char)) :
    joinWords (w :: x :: ws) = w ++ ' ' :: joinWords (x :: ws) := rfl

theorem joinWords_ne_nil {ws : List (List Char)} (h : ws ≠ [])
    (hw : ∀ w ∈ ws, w ≠ []) : joinWords ws ≠ [] := by
  match ws, h with
  | [w], _ => exact hw w (by simp)
  | w :: x :: ws, _ =>
    rw [joinWords_cons_cons]
    intro hc
    exact hw w (by simp) (List.append_eq_nil.mp hc).1

theorem joinWords_append_single {ws : List (List Char)} (x : List Char)
    (h : ws ≠ []) : joinWords (ws ++ [x]) = joinWords ws ++ ' ' :: x := by
  induction ws with
  | nil => exact absurd rfl h
  | cons w ws ih =>
    cases ws with
    | nil => rfl
    | cons y ys =>
      have := ih (by simp)
      simp only [List.cons_append, joinWords_cons_cons] at *
      rw [this]
      simp

theorem fieldsAux_wf : ∀ (l cur : List Char),
    (∀ c ∈ cur, isSpaceC c = false) → ∀ w ∈ fieldsAux l cur, wfWord w := by
  intro l
  induction l with
  | nil =>
    intro cur hcur w hw
    simp only [fieldsAux] at hw
    split at hw
    · simp at hw
    · next hne =>
      simp only [List.mem_singleton] at hw
      subst hw
      refine ⟨?_, ?_⟩
      · simpa using fun h => hne (by simp [h, List.isEmpty_iff])
      · intro c hc
        exact hcur c (List.mem_reverse.mp hc)
  | cons a as ih =>
    intro cur hcur w hw
    simp only [fieldsAux] at hw
    by_cases hs : isSpaceC a
    · rw [if_pos hs] at hw
      by_cases he : cur.isEmpty
      · rw [if_pos he] at hw
        exact ih [] (by simp) w hw
      · rw [if_neg he] at hw
        rcases List.mem_cons.mp hw with h | h
        · subst h
          refine ⟨?_, ?_⟩
          · simpa using fun h => he (by simp [h, List.isEmpty_iff])
          · intro c hc
            exact hcur c (List.mem_reverse.mp hc)
        · exact ih [] (by simp) w h
    · rw [if_neg hs] at hw
      refine ih (a :: cur) ?_ w hw
      intro c hc
      rcases List.mem_cons.mp hc with h | h
      · subst h; simpa using hs
      · exact hcur c h

theorem fieldsAux_word (w : List Char) (hw : ∀ c ∈ w, isSpaceC c = false) :
    ∀ (rest cur : List Char),
      fieldsAux (w ++ rest) cur = fieldsAux rest (w.reverse ++ cur) := by
  induction w with
  | nil => intro rest cur; simp
  | cons a as ih =>
    intro rest cur
    have ha : isSpaceC a = false := hw a (by simp)
    simp only [List.cons_append, fieldsAux, ha, Bool.false_eq_true, if_false,
      List.append_eq]
    rw [ih (fun c hc => hw c (by simp [hc])) rest (a :: cur)]
    simp

theorem fieldsAux_spaces : ∀ (s : List Char),
    (∀ c ∈ s, isSpaceC c = true) → ∀ cur, fieldsAux s cur = fieldsAux [] cur := by
  intro s
  induction s with
  | nil => intro _ _; rfl
  | cons a as ih =>
    intro hs cur
    have ha : isSpaceC a = true := hs a (by simp)
    simp only [fieldsAux, ha, if_true]
    by_cases he : cur.isEmpty
    · rw [if_pos he, ih (fun c hc => hs c (by simp [hc])) []]
      have : cur = [] := by simpa [List.isEmpty_iff] using he
      simp [this, fieldsAux]
    · rw [if_neg he, ih (fun c hc => hs c (by simp [hc])) []]
      have : ¬ cur = [] := by simpa [List.isEmpty_iff] using he
      simp [fieldsAux, this, List.isEmpty_iff]

theorem fieldsAux_append_spaces (s : List Char)
    (hs : ∀ c ∈ s, isSpaceC c = true) : ∀ (l cur : List Char),
    fieldsAux (l ++ s) cur = fieldsAux l cur := by
  intro l
  induction l with
  | nil => intro cur; simpa using fieldsAux_spaces s hs cur
  | cons a as ih =>
    intro cur
    simp only [List.cons_append, fieldsAux]
    by_cases hsa : isSpaceC a
    · simp only [hsa, if_true]
      by_cases he : cur.isEmpty
      · simp [he, ih]
      · simp [he, ih]
    · simp [hsa, ih]

theorem fieldsCh_dropWhile (l : List Char) :
    fieldsCh (l.dropWhile isSpaceC) = fieldsCh l := by
  induction l with
  | nil => rfl
  | cons a as ih =>
    by_cases hs : isSpaceC a
    · rw [List.dropWhile_cons_of_pos hs]
      rw [ih]
      simp [fieldsCh, fieldsAux, hs]
    · rw [List.dropWhile_cons_of_neg (by simpa using hs)]

theorem fieldsCh_trimCh (l : List Char) : fieldsCh (trimCh l) = fieldsCh l := by
  unfold trimCh
  set l' := l.dropWhile isSpaceC with hl'
  have hdecomp : l' = (l'.reverse.dropWhile isSpaceC).reverse
      ++ (l'.reverse.takeWhile isSpaceC).reverse := by
    have h1 : l'.reverse.takeWhile isSpaceC ++ l'.reverse.dropWhile isSpaceC
        = l'.reverse := List.takeWhile_append_dropWhile isSpaceC l'.reverse
    calc l' = l'.reverse.reverse := by rw [List.reverse_reverse]
    _ = (l'.reverse.takeWhile isSpaceC ++ l'.reverse.dropWhile isSpaceC).reverse := by
        rw [h1]
    _ = _ := by rw [List.reverse_append]
  have hsp : ∀ c ∈ (l'.reverse.takeWhile isSpaceC).reverse, isSpaceC c = true := by
    intro c hc
    exact List.mem_takeWhile_imp (List.mem_reverse.mp hc)
  calc fieldsCh (l'.reverse.dropWhile isSpaceC).reverse
      = fieldsAux ((l'.reverse.dropWhile isSpaceC).reverse
          ++ (l'.reverse.takeWhile isSpaceC).reverse) [] := by
        rw [fieldsAux_append_spaces _ hsp]
        rfl
    _ = fieldsCh l' := by rw [← hdecomp]; rfl
    _ = fieldsCh l := fieldsCh_dropWhile l

theorem fieldsCh_joinWords : ∀ (ws : List (List Char)),
    (∀ w ∈ ws, wfWord w) → fieldsCh (joinWords ws) = ws := by
  intro ws
  induction ws with
  | nil => intro _; rfl
  | cons w vs ih =>
    intro hwf
    obtain ⟨hne, hns⟩ := hwf w (by simp)
    cases vs with
    | nil =>
      show fieldsAux (joinWords [w]) [] = [w]
      have : joinWords [w] = w ++ [] := by simp [joinWords]
      rw [this, fieldsAux_word w hns [] []]
      have hre : ¬ (w.reverse ++ []).isEmpty := by
        simp only [List.append_nil, List.isEmpty_iff, List.reverse_eq_nil_iff]
        exact hne
      simp [fieldsAux, List.isEmpty_iff, hne]
    | cons x xs =>
      rw [joinWords_cons_cons]
      show fieldsAux (w ++ ' ' :: joinWords (x :: xs)) [] = w :: x :: xs
      rw [fieldsAux_word w hns _ []]
      have hre : ¬ (w.reverse ++ []).isEmpty := by
        simp only [List.append_nil, List.isEmpty_iff, List.reverse_eq_nil_iff]
        exact hne
      have hsp : isSpaceC ' ' = true := by decide
      simp only [fieldsAux, hsp, if_true, hre, if_false]
      have := ih (fun v hv => hwf v (by simp [hv]))
      simp only [fieldsCh] at this
      rw [this]
      simp

theorem mk_ne_empty {l : List Char} (h : l ≠ []) : String.mk l ≠ "" := by
  intro hc
  exact h (congrArg String.data hc)

theorem chunkLoop_spec (m : Int) : ∀ (ws chunks : List String) (cur : String)
    (cws : List (List Char)),
    (∀ w ∈ ws, wfWord w.data) →
    cws ≠ [] → (∀ w ∈ cws, wfWord w) →
    cur.data = joinWords cws →
    (((chunkLoop m ws chunks cur).map (fun c => fieldsCh c.data)).flatten
        = ((chunks.map (fun c => fieldsCh c.data)).flatten) ++ cws
          ++ ws.map String.data)
    ∧ ((∀ c ∈ chunks, c ≠ "") → ∀ c ∈ chunkLoop m ws chunks cur, c ≠ "") := by
  intro ws
  induction ws with
  | nil =>
    intro chunks cur cws _ hcne hcwf hcur
    have hjw : joinWords cws ≠ [] :=
      joinWords_ne_nil hcne (fun w hw => (hcwf w hw).1)
    have hlen : cur.length > 0 := by
      show cur.data.length > 0
      rw [hcur]
      exact List.length_pos.mpr hjw
    have hfc : fieldsCh (trimSpace cur).data = cws := by
      show fieldsCh (trimCh cur.data) = cws
      rw [fieldsCh_trimCh, hcur]
      exact fieldsCh_joinWords cws hcwf
    have htne : trimSpace cur ≠ "" := by
      apply mk_ne_empty
      intro hnil
      have : fieldsCh (trimCh cur.data) = [] := by
        show fieldsCh (trimSpace cur).data = []
        simp only [trimSpace] at hnil ⊢
        rw [hnil]
        rfl
      rw [fieldsCh_trimCh, hcur, fieldsCh_joinWords cws hcwf] at this
      exact hcne this
    constructor
    · simp only [chunkLoop, if_pos hlen, List.map_append, List.map_nil,
        List.flatten_append, List.map_cons, List.append_nil]
      rw [hfc]
      simp
    · intro hch c hc
      simp only [chunkLoop, if_pos hlen] at hc
      rcases List.mem_append.mp hc with h | h
      · exact hch c h
      · simp only [List.mem_singleton] at h
        subst h
        exact htne
  | cons w vs ih =>
    intro chunks cur cws hws hcne hcwf hcur
    have hwf_w : wfWord w.data := hws w (by simp)
    have hws' : ∀ v ∈ vs, wfWord v.data := fun v hv => hws v (by simp [hv])
    have hjw : joinWords cws ≠ [] :=
      joinWords_ne_nil hcne (fun x hx => (hcwf x hx).1)
    have hlen : cur.length > 0 := by
      show cur.data.length > 0
      rw [hcur]
      exact List.length_pos.mpr hjw
    have hfc : fieldsCh (trimSpace cur).data = cws := by
      show fieldsCh (trimCh cur.data) = cws
      rw [fieldsCh_trimCh, hcur]
      exact fieldsCh_joinWords cws hcwf
    have htne : trimSpace cur ≠ "" := by
      apply mk_ne_empty
      intro hnil
      have : fieldsCh (trimCh cur.data) = [] := by
        show fieldsCh (trimSpace cur).data = []
        simp only [trimSpace] at hnil ⊢
        rw [hnil]
        rfl
      rw [fieldsCh_trimCh, hcur, fieldsCh_joinWords cws hcwf] at this
      exact hcne this
    by_cases hflush : cur.length > 0 ∧ m < (cur.utf8ByteSize : Int) + (w.utf8ByteSize : Int) + 1
    · have heq : chunkLoop m (w :: vs) chunks cur
          = chunkLoop m vs (chunks ++ [trimSpace cur]) w := by
        simp only [chunkLoop, if_pos hflush]
      obtain ⟨ihjoin, ihne⟩ := ih (chunks ++ [trimSpace cur]) w [w.data] hws'
        (by simp) (by simpa using hwf_w) rfl
      constructor
      · rw [heq, ihjoin]
        simp only [List.map_append, List.flatten_append, List.map_cons,
          List.map_nil, List.append_nil]
        rw [hfc]
        simp
      · intro hch c hc
        rw [heq] at hc
        refine ihne ?_ c hc
        intro d hd
        rcases List.mem_append.mp hd with h | h
        · exact hch d h
        · simp only [List.mem_singleton] at h
          subst h
          exact htne
    · have heq : chunkLoop m (w :: vs) chunks cur
          = chunkLoop m vs chunks (cur ++ " " ++ w) := by
        simp only [chunkLoop, if_neg hflush, if_pos hlen]
      have hcur' : (cur ++ " " ++ w).data = joinWords (cws ++ [w.data]) := by
        rw [joinWords_append_single w.data hcne]
        simp [hcur]
      obtain ⟨ihjoin, ihne⟩ := ih chunks (cur ++ " " ++ w) (cws ++ [w.data]) hws'
        (by simp)
        (by
          intro x hx
          rcases List.mem_append.mp hx with h | h
          · exact hcwf x h
          · simp only [List.mem_singleton] at h
            subst h
            exact hwf_w)
        hcur'
      constructor
      · rw [heq, ihjoin]
        simp
      · intro hch c hc
        rw [heq] at hc
        exact ihne hch c hc

theorem strFields_wf (s : String) : ∀ w ∈ strFields s, wfWord w.data := by
  intro w hw
  simp only [strFields, List.mem_map] at hw
  obtain ⟨v, hv, rfl⟩ := hw
  exact fieldsAux_wf s.data [] (by simp) v hv

theorem strFields_data (s : String) :
    (strFields s).map String.data = fieldsCh s.data := by
  simp only [strFields, List.map_map]
  have : String.data ∘ String.mk = id := by
    funext l
    rfl
  rw [this, List.map_id]

/-- Claim C10 core content at the character level.  Also see the top-level
statement `chunkText_preserves_words`. -/
theorem chunkText_flatten (text : String) (m : Int) :
    ((ChunkText text m).map (fun c => fieldsCh c.data)).flatten
      = fieldsCh text.data
    ∧ ∀ c ∈ ChunkText text m, c ≠ "" := by
  unfold ChunkText
  by_cases hempty : (strFields text).isEmpty
  · have : strFields text = [] := by simpa [List.isEmpty_iff] using hempty
    rw [if_pos hempty]
    constructor
    · have := strFields_data text
      rw [this.symm, ‹strFields text = []›]
      rfl
    · intro c hc
      simp at hc
  · rw [if_neg hempty]
    have hne : strFields text ≠ [] := by
      simpa [List.isEmpty_iff] using hempty
    obtain ⟨w, vs, hwvs⟩ := List.exists_cons_of_ne_nil hne
    rw [hwvs]
    set m' : Int := if m ≤ 0 then 1000 else m with hm'
    have hstep : chunkLoop m' (w :: vs) [] ""
        = chunkLoop m' vs [] w := by
      have hcond : ¬ (("" : String).length > 0
          ∧ m' < (("" : String).utf8ByteSize : Int) + (w.utf8ByteSize : Int) + 1) := by
        intro h
        simp at h
      simp only [chunkLoop, if_neg hcond]
      have : ¬ ("" : String).length > 0 := by decide
      rw [if_neg this]
    have hwf_w : wfWord w.data := strFields_wf text w (by rw [hwvs]; simp)
    have hws' : ∀ v ∈ vs, wfWord v.data := by
      intro v hv
      exact strFields_wf text v (by rw [hwvs]; simp [hv])
    obtain ⟨hjoin, hne'⟩ := chunkLoop_spec m' vs [] w [w.data] hws'
      (by simp) (by simpa using hwf_w) rfl
    constructor
    · rw [hstep, hjoin]
      have : [w.data] ++ vs.map String.data = (strFields text).map String.data := by
        rw [hwvs]
        simp
      rw [strFields_data] at this
      simpa using this
    · intro c hc
      rw [hstep] at hc
      exact hne' (by simp) c hc

theorem chunkText_empty_iff (text : String) (m : Int) :
    ChunkText text m = [] ↔ strFields text = [] := by
  constructor
  · intro h
    have := (chunkText_flatten text m).1
    rw [h] at this
    have hfc : fieldsCh text.data = [] := by simpa using this.symm
    simp [strFields, hfc]
  · intro h
    unfold ChunkText
    rw [if_pos (by simp [List.isEmpty_iff, h])]

/-- C10: `ChunkText` preserves the word sequence of its input — flattening
the words of the returned chunks yields exactly the words of the input, every
returned chunk is non-empty, and the chunk list is empty exactly when the
input has no words. -/
theorem chunkText_preserves_words (text : String) (m : Int) :
    ((ChunkText text m).map strFields).flatten = strFields text
    ∧ (∀ c ∈ ChunkText text m, c ≠ "")
    ∧ (ChunkText text m = [] ↔ strFields text = []) := by
  refine ⟨?_, (chunkText_flatten text m).2, chunkText_empty_iff text m⟩
  have h := (chunkText_flatten text m).1
  calc ((ChunkText text m).map strFields).flatten
      = (((ChunkText text m).map (fun c => fieldsCh c.data)).flatten).map
          String.mk := by
        simp only [List.map_flatten, List.map_map]
        rfl
    _ = (fieldsCh text.data).map String.mk := by rw [h]
    _ = strFields text := rfl

/-- Witness for C10 at a concrete input. -/
theorem chunkText_preserves_words_witness :
    (("alpha" : String) ∈ ChunkText "alpha beta" 5)
    ∧ ("alpha" : String) ≠ "" :=
  ⟨by decide, (chunkText_preserves_words "alpha beta" 5).2.1 "alpha" (by decide)⟩

/-! ## Data model

Rows of the relational store (src/internal/config/config.go, lines 168-266).
UUIDs are modelled as `Nat` identifiers handed out by a counter; `gorm`
timestamps are not modelled — `ORDER BY created_at DESC` becomes reversal of
insertion order. -/

/-- models.KnowledgeEntry (config.go 168-191); fields not read by the
services under verification (tags, template, field data, creator,
timestamps) are omitted. -/
structure KnowledgeEntry where
  id : Nat
  title : String
  content : String
  summary : String
  isPublished : Bool
  priority : Int
  viewCount : Nat
deriving Repr, DecidableEq

/-- models.VectorEmbedding (config.go 255-266). -/
structure VectorEmbedding where
  knowledgeEntryID : Nat
  vectorID : String
  chunkIndex : Nat
  chunkText : String
deriving Repr, DecidableEq

/-- The knowledge-side tables of the relational store. -/
structure KnowledgeDb where
  entries : List KnowledgeEntry
  embeddings : List VectorEmbedding
deriving Repr, DecidableEq

/-- models.ChatSession (config.go 193-207). -/
structure ChatSession where
  id : Nat
  userID : Nat
  title : String
  isActive : Bool
deriving Repr, DecidableEq

/-- models.ChatMessage (config.go 209-218); the role is the raw string the
services store ("user" / "assistant"). -/
structure ChatMessage where
  id : Nat
  sessionID : Nat
  role : String
  content : String
  metadata : String
deriving Repr, DecidableEq

/-- The chat-side tables of the relational store.  Messages are kept in
insertion order; ids grow with the counters, so `created_at` order equals id
order. -/
structure ChatDb where
  sessions : List ChatSession
  messages : List ChatMessage
  nextSessionId : Nat
  nextMessageId : Nat
deriving Repr, DecidableEq

/-- gorm `Create` on the chat_messages table. -/
def insertMessage (db : ChatDb) (m : ChatMessage) : ChatDb :=
  { db with messages := db.messages ++ [m], nextMessageId := db.nextMessageId + 1 }

/-- The messages of one session, in creation order. -/
def sessionMessages (db : ChatDb) (sid : Nat) : List ChatMessage :=
  db.messages.filter (fun m => m.sessionID == sid)

/-! ## Vector search client

`VectorService` (src/unnamed/part_008).  Only `Search` is relevant to the
claims: it unconditionally rejects raw-text search. -/

/-- services.VectorSearchResult (part_008 lines 49-53); the similarity score
is irrelevant to the claims and omitted. -/
structure VectorSearchResult where
  knowledgeEntryID : Nat
  chunkText : String
deriving Repr, DecidableEq

/-- VectorService.Search (part_008 lines 134-138): always fails — searching
by raw text is not implemented, callers must use SearchByVector. -/
def VectorService.Search (_query : String) (_limit : Nat) :
    Except String (List VectorSearchResult) :=
  .error "search by text not implemented - use SearchByVector instead"

/-! ## Knowledge retrieval service

`KnowledgeService` (src/internal/services/knowledge.go).  The embedding and
vector-store network calls are oracles; a gorm transaction rolls back by
returning the pre-transaction database. -/

/-- The two external calls made while building embeddings:
`OpenAIService.CreateEmbedding` (part_007 lines 92-108) and
`VectorService.Store` (part_008 lines 91-132).  Vectors are opaque here. -/
structure EmbeddingOracle where
  createEmbedding : String → Except String (List Float)
  store : List Float → String → Nat → Except String String

/-- The combined text embedded for an entry (knowledge.go lines 207-211):
title and content, preceded by the summary when non-empty. -/
def combinedText (e : KnowledgeEntry) : String :=
  let fullText := e.title ++ "\n\n" ++ e.content
  if e.summary != "" then e.summary ++ "\n\n" ++ fullText else fullText

/-- The loop of KnowledgeService.createEmbeddings (knowledge.go lines
216-240): per chunk, create an embedding, store it in the vector index, and
record one VectorEmbedding row; any failure aborts the whole operation. -/
def createEmbeddingsLoop (o : EmbeddingOracle) (eid : Nat) :
    Nat → List String → Except String (List VectorEmbedding)
  | _, [] => .ok []
  | i, chunk :: rest =>
    match o.createEmbedding chunk with
    | .error e => .error e
    | .ok emb =>
      match o.store emb chunk eid with
      | .error e => .error e
      | .ok vid =>
        match createEmbeddingsLoop o eid (i + 1) rest with
        | .error e => .error e
        | .ok rows =>
          .ok ({ knowledgeEntryID := eid, vectorID := vid, chunkIndex := i,
                 chunkText := chunk } :: rows)

/-- KnowledgeService.createEmbeddings (knowledge.go lines 206-243), as the
list of VectorEmbedding rows it inserts into the open transaction. -/
def createEmbeddingsRows (o : EmbeddingOracle) (e : KnowledgeEntry) :
    Except String (List VectorEmbedding) :=
  createEmbeddingsLoop o e.id 0 (ChunkText (combinedText e) 1000)

/-- gorm `Save` on knowledge_entries: update by primary key, insert when the
key is absent. -/
def saveEntry (l : List KnowledgeEntry) (entry : KnowledgeEntry) :
    List KnowledgeEntry :=
  if l.any (fun e => e.id == entry.id) then
    l.map (fun e => if e.id == entry.id then entry else e)
  else l ++ [entry]

/-- KnowledgeService.CreateKnowledgeEntry (knowledge.go lines 63-87): insert
the entry and, when it is published, its embedding rows, in one transaction;
on failure the transaction rolls back. -/
def CreateKnowledgeEntry (o : EmbeddingOracle) (db : KnowledgeDb)
    (entry : KnowledgeEntry) : Except String Unit × KnowledgeDb :=
  let db1 : KnowledgeDb := { db with entries := db.entries ++ [entry] }
  if entry.isPublished then
    match createEmbeddingsRows o entry with
    | .error e => (.error e, db)
    | .ok rows =>
      (.ok (), { db1 with embeddings := db1.embeddings ++ rows })
  else (.ok (), db1)

/-- KnowledgeService.UpdateKnowledgeEntry (knowledge.go lines 117-147): save
the entry; only when it is published, delete its old embedding rows and
rebuild them, all in one transaction. -/
def UpdateKnowledgeEntry (o : EmbeddingOracle) (db : KnowledgeDb)
    (entry : KnowledgeEntry) : Except String Unit × KnowledgeDb :=
  let db1 : KnowledgeDb := { db with entries := saveEntry db.entries entry }
  if entry.isPublished then
    match createEmbeddingsRows o entry with
    | .error e => (.error e, db)
    | .ok rows =>
      (.ok (),
       { db1 with embeddings :=
           db1.embeddings.filter (fun r => r.knowledgeEntryID != entry.id)
             ++ rows })
  else (.ok (), db1)

/-- KnowledgeService.DeleteKnowledgeEntry (knowledge.go lines 149-170):
delete the embedding rows and the entry in one transaction. -/
def DeleteKnowledgeEntry (db : KnowledgeDb) (id : Nat) :
    Except String Unit × KnowledgeDb :=
  (.ok (),
   { entries := db.entries.filter (fun e => e.id != id),
     embeddings := db.embeddings.filter (fun r => r.knowledgeEntryID != id) })

/-- The VectorEmbedding rows belonging to one entry. -/
def rowsFor (db : KnowledgeDb) (id : Nat) : List VectorEmbedding :=
  db.embeddings.filter (fun r => r.knowledgeEntryID == id)

/-! ## Hybrid search (knowledge.go lines 172-204) -/

/-- Lower-casing on the character level, for the ILIKE model. -/
def toLowerCh (l : List Char) : List Char := l.map Char.toLower

/-- Substring containment on character lists. -/
def containsSub (hay needle : List Char) : Bool :=
  hay.tails.any (fun t => needle.isPrefixOf t)

/-- SQL `field ILIKE '%' || pattern || '%'` modelled as case-insensitive
substring containment (the query strings the service builds contain no SQL
wildcard characters of their own). -/
def ilike (field pattern : String) : Bool :=
  containsSub (toLowerCh field.data) (toLowerCh pattern.data)

/-- The text-fallback WHERE clause (knowledge.go line 197): published and
matching the query in title, content or summary. -/
def matchesQuery (q : String) (e : KnowledgeEntry) : Bool :=
  ilike e.title q || ilike e.content q || ilike e.summary q

/-- The ORDER BY of the text fallback (knowledge.go line 200): priority
descending, then view_count descending. -/
def entryOrder (a b : KnowledgeEntry) : Prop :=
  b.priority < a.priority ∨ (a.priority = b.priority ∧ b.viewCount ≤ a.viewCount)

instance : DecidableRel entryOrder := fun a b => by
  unfold entryOrder
  infer_instance

instance : IsTotal KnowledgeEntry entryOrder where
  total a b := by
    unfold entryOrder
    omega

instance : IsTrans KnowledgeEntry entryOrder where
  trans a b c hab hbc := by
    unfold entryOrder at *
    omega

/-- The text-fallback query of SearchKnowledgeEntries (knowledge.go lines
193-203): filter on published + ILIKE, order by priority then view count,
cap at `limit`. -/
def textSearchFallback (db : KnowledgeDb) (query : String) (limit : Nat) :
    List KnowledgeEntry :=
  ((db.entries.filter (fun e => e.isPublished && matchesQuery query e)).insertionSort
      entryOrder).take limit

/-- KnowledgeService.SearchKnowledgeEntries (knowledge.go lines 172-204),
parameterized over the outcome of the vector search so that the fallback
condition can be stated: a successful non-empty vector result is resolved
against published entries by id; otherwise the text fallback runs. -/
def searchKnowledgeEntriesWith (vres : Except String (List VectorSearchResult))
    (db : KnowledgeDb) (query : String) (limit : Nat) : List KnowledgeEntry :=
  match vres with
  | .ok results =>
    if results.length > 0 then
      let entryIDs := results.map (fun r => r.knowledgeEntryID)
      db.entries.filter (fun e => entryIDs.contains e.id && e.isPublished)
    else textSearchFallback db query limit
  | .error _ => textSearchFallback db query limit

/-- KnowledgeService.SearchKnowledgeEntries as wired in the repository: the
vector attempt goes through `VectorService.Search`. -/
def SearchKnowledgeEntries (db : KnowledgeDb) (query : String) (limit : Nat) :
    List KnowledgeEntry :=
  searchKnowledgeEntriesWith (VectorService.Search query limit) db query limit

/-! ## C2: hybrid search falls back to published text search -/

theorem textSearchFallback_mem {db : KnowledgeDb} {query : String}
    {limit : Nat} {en : KnowledgeEntry}
    (h : en ∈ textSearchFallback db query limit) :
    en.isPublished = true ∧ matchesQuery query en = true := by
  unfold textSearchFallback at h
  have h1 : en ∈ (db.entries.filter
      (fun e => e.isPublished && matchesQuery query e)).insertionSort entryOrder :=
    List.mem_of_mem_take h
  have h2 : en ∈ db.entries.filter (fun e => e.isPublished && matchesQuery query e) :=
    (List.perm_insertionSort entryOrder _).mem_iff.mp h1
  have h3 := (List.mem_filter.mp h2).2
  simpa using h3

/-- C2: `SearchKnowledgeEntries` attempts vector search first and falls back
to the published text search whenever the vector attempt errors or is empty;
the repository's vector client always rejects raw-text search, so the
deployed composition always takes the fallback; the fallback returns only
published matching entries, ordered by priority then view count, capped at
`limit`; unpublished entries are returned by neither path. -/
theorem search_fallback_spec (db : KnowledgeDb) (query : String) (limit : Nat) :
    (∀ vres : Except String (List VectorSearchResult),
      ((∃ e, vres = Except.error e) ∨ vres = Except.ok []) →
      searchKnowledgeEntriesWith vres db query limit
        = textSearchFallback db query limit)
    ∧ (∃ e, VectorService.Search query limit = Except.error e)
    ∧ SearchKnowledgeEntries db query limit = textSearchFallback db query limit
    ∧ (∀ en ∈ textSearchFallback db query limit,
        en.isPublished = true ∧ matchesQuery query en = true)
    ∧ (textSearchFallback db query limit).length ≤ limit
    ∧ List.Sorted entryOrder (textSearchFallback db query limit)
    ∧ (∀ vres : Except String (List VectorSearchResult),
        ∀ en ∈ searchKnowledgeEntriesWith vres db query limit,
        en.isPublished = true) := by
  refine ⟨?_, ⟨_, rfl⟩, rfl, ?_, ?_, ?_, ?_⟩
  · intro vres h
    rcases h with ⟨e, rfl⟩ | rfl
    · rfl
    · simp [searchKnowledgeEntriesWith]
  · intro en hen
    exact textSearchFallback_mem hen
  · exact List.length_take_le limit _
  · exact List.Pairwise.sublist (List.take_sublist limit _)
      (List.sorted_insertionSort entryOrder _)
  · intro vres en hen
    match vres with
    | .error e => exact (textSearchFallback_mem hen).1
    | .ok results =>
      simp only [searchKnowledgeEntriesWith] at hen
      split at hen
      · have := (List.mem_filter.mp hen).2
        simp only [Bool.and_eq_true] at this
        exact this.2
      · exact (textSearchFallback_mem hen).1

/-- Concrete published entry used in witnesses. -/
def entryW1 : KnowledgeEntry :=
  { id := 1, title := "Payment FAQ", content := "How to fix a payment error",
    summary := "", isPublished := true, priority := 5, viewCount := 2 }

/-- Concrete unpublished entry used in witnesses. -/
def entryW2 : KnowledgeEntry :=
  { id := 2, title := "Payment draft", content := "unpublished payment notes",
    summary := "", isPublished := false, priority := 9, viewCount := 0 }

/-- Concrete knowledge store used in witnesses. -/
def kdbW : KnowledgeDb := { entries := [entryW1, entryW2], embeddings := [] }

/-- Witness for C2 at a concrete store and query. -/
theorem search_fallback_spec_witness :
    searchKnowledgeEntriesWith (Except.error "connection refused") kdbW "payment" 5
      = textSearchFallback kdbW "payment" 5
    ∧ entryW1.isPublished = true ∧ matchesQuery "payment" entryW1 = true :=
  ⟨(search_fallback_spec kdbW "payment" 5).1 (Except.error "connection refused")
      (Or.inl ⟨"connection refused", rfl⟩),
   (search_fallback_spec kdbW "payment" 5).2.2.2.1 entryW1 (by decide)⟩

/-! ## C1: embedding lifecycle of knowledge entries -/

theorem createEmbeddingsLoop_ok (o : EmbeddingOracle) (eid : Nat) :
    ∀ (chunks : List String) (i : Nat) (rows : List VectorEmbedding),
    createEmbeddingsLoop o eid i chunks = .ok rows →
    rows.map (fun r => (r.chunkIndex, r.chunkText)) = List.enumFrom i chunks
    ∧ ∀ r ∈ rows, r.knowledgeEntryID = eid := by
  intro chunks
  induction chunks with
  | nil =>
    intro i rows h
    simp only [createEmbeddingsLoop] at h
    cases h
    simp [List.enumFrom]
  | cons chunk rest ih =>
    intro i rows h
    simp only [createEmbeddingsLoop] at h
    cases h1 : o.createEmbedding chunk with
    | error e => simp only [h1] at h; exact absurd h (by simp)
    | ok emb =>
      simp only [h1] at h
      cases h2 : o.store emb chunk eid with
      | error e => simp only [h2] at h; exact absurd h (by simp)
      | ok vid =>
        simp only [h2] at h
        cases h3 : createEmbeddingsLoop o eid (i + 1) rest with
        | error e => simp only [h3] at h; exact absurd h (by simp)
        | ok tailRows =>
          simp only [h3, Except.ok.injEq] at h
          subst h
          obtain ⟨ihmap, ihall⟩ := ih (i + 1) tailRows h3
          constructor
          · simp [List.enumFrom, ihmap]
          · intro r hr
            rcases List.mem_cons.mp hr with h | h
            · subst h; rfl
            · exact ihall r h

/-- C1 as amended: for each mutation of the Knowledge Retrieval Service, the
VectorEmbedding rows of an entry after the operation: a published create or
update ends with exactly one row per chunk of the combined text (an update
deleting the stale rows first); a create with publish=false adds no rows; an
update with publish=false leaves the embeddings table untouched (stale rows
of a formerly published entry survive); a delete removes the rows with the
entry; and a failing embedding build rolls the whole transaction back. -/
theorem knowledge_embedding_lifecycle (o : EmbeddingOracle) (db : KnowledgeDb)
    (entry : KnowledgeEntry) (rows : List VectorEmbedding) (id : Nat) :
    (entry.isPublished = true → createEmbeddingsRows o entry = .ok rows →
      CreateKnowledgeEntry o db entry
        = (.ok (), { entries := db.entries ++ [entry],
                     embeddings := db.embeddings ++ rows })
      ∧ rows.map (fun r => (r.chunkIndex, r.chunkText))
          = List.enumFrom 0 (ChunkText (combinedText entry) 1000)
      ∧ (rowsFor db entry.id = [] →
          rowsFor (CreateKnowledgeEntry o db entry).2 entry.id = rows))
    ∧ (entry.isPublished = false →
        CreateKnowledgeEntry o db entry
          = (.ok (), { entries := db.entries ++ [entry],
                       embeddings := db.embeddings }))
    ∧ (∀ e, entry.isPublished = true → createEmbeddingsRows o entry = .error e →
        CreateKnowledgeEntry o db entry = (.error e, db))
    ∧ (entry.isPublished = true → createEmbeddingsRows o entry = .ok rows →
        UpdateKnowledgeEntry o db entry
          = (.ok (), { entries := saveEntry db.entries entry,
                       embeddings :=
                         db.embeddings.filter
                           (fun r => r.knowledgeEntryID != entry.id) ++ rows })
        ∧ rowsFor (UpdateKnowledgeEntry o db entry).2 entry.id = rows)
    ∧ (entry.isPublished = false →
        UpdateKnowledgeEntry o db entry
          = (.ok (), { entries := saveEntry db.entries entry,
                       embeddings := db.embeddings }))
    ∧ (∀ e, entry.isPublished = true → createEmbeddingsRows o entry = .error e →
        UpdateKnowledgeEntry o db entry = (.error e, db))
    ∧ (DeleteKnowledgeEntry db id
        = (.ok (), { entries := db.entries.filter (fun en => en.id != id),
                     embeddings :=
                       db.embeddings.filter (fun r => r.knowledgeEntryID != id) })
      ∧ rowsFor (DeleteKnowledgeEntry db id).2 id = []) := by
  have hall : createEmbeddingsRows o entry = .ok rows →
      ∀ r ∈ rows, r.knowledgeEntryID = entry.id := fun hok =>
    (createEmbeddingsLoop_ok o entry.id _ 0 rows hok).2
  have hrowsid : createEmbeddingsRows o entry = .ok rows →
      rows.filter (fun r => r.knowledgeEntryID == entry.id) = rows := by
    intro hok
    apply List.filter_eq_self.mpr
    intro r hr
    simp [hall hok r hr]
  refine ⟨?_, ?_, ?_, ?_, ?_, ?_, ?_, ?_⟩
  · intro hpub hok
    refine ⟨?_, (createEmbeddingsLoop_ok o entry.id _ 0 rows hok).1, ?_⟩
    · simp [CreateKnowledgeEntry, hpub, hok]
    · intro hfresh
      simp only [CreateKnowledgeEntry, hpub, hok, if_true]
      unfold rowsFor at hfresh ⊢
      simp only [List.filter_append]
      rw [hfresh, hrowsid hok]
      rfl
  · intro hpub
    simp [CreateKnowledgeEntry, hpub]
  · intro e hpub herr
    simp [CreateKnowledgeEntry, hpub, herr]
  · intro hpub hok
    refine ⟨?_, ?_⟩
    · simp [UpdateKnowledgeEntry, hpub, hok]
    · simp only [UpdateKnowledgeEntry, hpub, hok, if_true]
      unfold rowsFor
      simp only [List.filter_append]
      rw [hrowsid hok]
      have : (db.embeddings.filter
          (fun r => r.knowledgeEntryID != entry.id)).filter
          (fun r => r.knowledgeEntryID == entry.id) = [] := by
        apply List.filter_eq_nil_iff.mpr
        intro r hr
        have := (List.mem_filter.mp hr).2
        simpa using this
      rw [this]
      rfl
  · intro hpub
    simp [UpdateKnowledgeEntry, hpub]
  · intro e hpub herr
    simp [UpdateKnowledgeEntry, hpub, herr]
  · rfl
  · unfold DeleteKnowledgeEntry rowsFor
    apply List.filter_eq_nil_iff.mpr
    intro r hr
    have := (List.mem_filter.mp hr).2
    simpa using this

/-- Oracle used in concrete scenarios: embedding and vector store always
succeed. -/
def oracleW : EmbeddingOracle :=
  { createEmbedding := fun _ => .ok [], store := fun _ _ _ => .ok "vec-1" }

/-- Concrete published entry for the C1 scenario. -/
def entryC1 : KnowledgeEntry :=
  { id := 1, title := "A", content := "B", summary := "",
    isPublished := true, priority := 0, viewCount := 0 }

/-- Counterexample to C1 as stated: create the entry published (one
embedding row appears), then update it with the publish flag cleared — the
stored entry is unpublished, yet its VectorEmbedding row survives, so an
unpublished entry does not have zero VectorEmbedding rows. -/
theorem unpublish_keeps_embeddings_cex :
    ((UpdateKnowledgeEntry oracleW
        (CreateKnowledgeEntry oracleW { entries := [], embeddings := [] } entryC1).2
        { entryC1 with isPublished := false }).2.entries.find?
        (fun e => e.id == 1)).map (fun e => e.isPublished) = some false
    ∧ (rowsFor (UpdateKnowledgeEntry oracleW
        (CreateKnowledgeEntry oracleW { entries := [], embeddings := [] } entryC1).2
        { entryC1 with isPublished := false }).2 1).length = 1 := by
  decide

/-- Witness for C1 (amended) at a concrete entry and oracle. -/
theorem knowledge_embedding_lifecycle_witness :
    CreateKnowledgeEntry oracleW { entries := [], embeddings := [] } entryC1
      = (.ok (), { entries := [entryC1],
                   embeddings := [{ knowledgeEntryID := 1, vectorID := "vec-1",
                                    chunkIndex := 0, chunkText := "A B" }] }) := by
  have h := (knowledge_embedding_lifecycle oracleW
    { entries := [], embeddings := [] } entryC1
    [{ knowledgeEntryID := 1, vectorID := "vec-1", chunkIndex := 0,
       chunkText := "A B" }] 0).1 (by decide) (by rfl)
  simpa using h.1

/-! ## Provider adapters

`OpenAIService.ChatCompletion` (part_007 lines 49-90) and
`GeminiService.ChatCompletion` (document_upload.go lines 341-406).  The
network clients are oracles (`complete`); everything up to the wire — system
prompt construction, message conversion, role translation — is embedded
faithfully, because the claims are about what is forwarded. -/

/-- services.OpenAIChatMessage (part_007 lines 38-41). -/
structure OpenAIChatMessage where
  role : String
  content : String
deriving Repr, DecidableEq

/-- services.OpenAIChatRequest (part_007 lines 31-36). -/
structure OpenAIChatRequest where
  messages : List OpenAIChatMessage
  context : List String
  sessionID : String
  useKnowledgeBase : Bool
deriving Repr, DecidableEq

/-- services.OpenAIChatResponse (part_007 lines 43-47). -/
structure OpenAIChatResponse where
  message : String
  sources : List String
  sessionID : String
deriving Repr, DecidableEq

/-- The fixed part of OpenAIService.buildSystemMessage (part_007 lines
134-148). -/
def openAIBaseMessage : String :=
  "You are a helpful AI assistant for operational support. Your primary role is to help employees with questions about:\n- How to operate the application/webapp\n- Understanding error messages and their solutions\n- Role and permission requirements\n- Finding specific screens and features for processing orders and tasks\n- Operational procedures and best practices\n\nGuidelines:\n1. Always be helpful, accurate, and concise\n2. If you\x27re not sure about something, say so\n3. Provide step-by-step instructions when helpful\n4. Reference specific screens, buttons, or features when relevant\n5. If the question is outside your knowledge base, suggest who the user should contact\n\n"

/-- The numbered knowledge section of buildSystemMessage (part_007 lines
151-154), starting at index `i`. -/
def knowledgeBlock : Nat → List String → String
  | _, [] => ""
  | i, c :: rest =>
    "Knowledge " ++ toString i ++ ":\n" ++ c ++ "\n\n" ++ knowledgeBlock (i + 1) rest

/-- OpenAIService.buildSystemMessage (part_007 lines 133-159). -/
def buildSystemMessage (context : List String) : String :=
  if context.length > 0 then
    openAIBaseMessage ++ "Based on the following knowledge base information:\n\n"
      ++ knowledgeBlock 1 context
      ++ "Please answer the user\x27s question using this information as context."
  else openAIBaseMessage

/-- The message list handed to the OpenAI client (part_007 lines 54-66): a
system message built from the context, followed by the request messages with
their role labels forwarded unchanged. -/
def openAIApiMessages (req : OpenAIChatRequest) : List OpenAIChatMessage :=
  { role := "system", content := buildSystemMessage req.context } :: req.messages

/-- services.OpenAIService, reduced to its network call: the chat-completion
client takes the converted messages and returns the reply text or an error
(model, token and temperature configuration is not observable in the
claims). -/
structure OpenAIService where
  complete : List OpenAIChatMessage → Except String String

/-- OpenAIService.ChatCompletion (part_007 lines 49-90). -/
def OpenAIService.ChatCompletion (s : OpenAIService) (req : OpenAIChatRequest) :
    Except String OpenAIChatResponse :=
  match s.complete (openAIApiMessages req) with
  | .error e => .error ("OpenAI API error: " ++ e)
  | .ok content =>
    .ok { message := content, sources := req.context, sessionID := req.sessionID }

/-- services.GeminiChatMessage (document_upload.go lines 329-332). -/
structure GeminiChatMessage where
  role : String
  content : String
deriving Repr, DecidableEq

/-- services.GeminiChatRequest (document_upload.go lines 320-326). -/
structure GeminiChatRequest where
  messages : List GeminiChatMessage
  context : List String
  sessionID : String
  useKnowledgeBase : Bool
  systemPrompt : String
deriving Repr, DecidableEq

/-- services.GeminiChatResponse (document_upload.go lines 334-339). -/
structure GeminiChatResponse where
  message : String
  sources : List String
  sessionID : String
  model : String
deriving Repr, DecidableEq

/-- Go `strings.ToLower`, character by character. -/
def strToLower (s : String) : String := String.mk (toLowerCh s.data)

/-- GeminiService.convertRole (document_upload.go lines 555-564): the label
the Gemini API expects — "model" for its own turns, "user" otherwise. -/
def GeminiService.convertRole (role : String) : String :=
  match strToLower role with
  | "user" => "user"
  | "assistant" => "model"
  | "model" => "model"
  | _ => "user"

/-- The fixed part of GeminiService.buildSystemInstruction
(document_upload.go lines 525-533). -/
def geminiBaseInstruction : String :=
  "You are an AI assistant for a knowledge management system. You help employees find information and answer questions about operational procedures, troubleshooting, and company processes.\n\nInstructions:\n- Provide accurate, helpful, and concise responses\n- If you use information from the knowledge base, acknowledge the source\n- If you\x27re unsure about something, say so rather than guessing\n- Format your responses clearly with bullet points or numbered lists when appropriate\n- Focus on practical, actionable advice"

/-- The numbered knowledge section of buildSystemInstruction
(document_upload.go lines 545-548), starting at index `i`. -/
def geminiKnowledgeBlock : Nat → List String → String
  | _, [] => ""
  | i, c :: rest =>
    toString i ++ ". " ++ c ++ "\n" ++ geminiKnowledgeBlock (i + 1) rest

/-- GeminiService.buildSystemInstruction (document_upload.go lines
522-553). -/
def buildSystemInstruction (context : List String) (customPrompt : String) :
    String :=
  let base := geminiBaseInstruction
  let withCustom :=
    if customPrompt != "" then
      base ++ "\n\nAdditional Instructions:\n" ++ customPrompt
    else base
  if context.length > 0 then
    withCustom ++ "\n\nRelevant Knowledge Base Information:\n"
      ++ geminiKnowledgeBlock 1 context
      ++ "\nUse this information to help answer the user\x27s question when relevant."
  else withCustom

/-- The history handed to the Gemini chat session (document_upload.go lines
366-376): every request message but the last, with roles translated by
convertRole. -/
def geminiApiHistory (req : GeminiChatRequest) : List GeminiChatMessage :=
  req.messages.dropLast.map
    (fun msg => { role := GeminiService.convertRole msg.role,
                  content := msg.content })

/-- services.GeminiService, reduced to its network call: the client takes
the system instruction, the converted history and the current message text,
and returns the reply text or an error. -/
structure GeminiService where
  model : String
  complete : String → List GeminiChatMessage → String → Except String String

/-- GeminiService.ChatCompletion (document_upload.go lines 341-406).  The Go
code indexes `Messages[len-1]` unconditionally; an empty message list (which
the callers never produce) is modelled as an error rather than a panic. -/
def GeminiService.ChatCompletion (s : GeminiService) (req : GeminiChatRequest) :
    Except String GeminiChatResponse :=
  let systemInstruction := buildSystemInstruction req.context req.systemPrompt
  match req.messages.getLast? with
  | none => .error "Gemini API error: no messages"
  | some current =>
    match s.complete systemInstruction (geminiApiHistory req) current.content with
    | .error e => .error ("Gemini API error: " ++ e)
    | .ok content =>
      .ok { message := content, sources := req.context,
            sessionID := req.sessionID, model := s.model }

/-! ## Unified AI orchestrator (chat.go lines 583-848) -/

/-- services.AIProvider (chat.go line 584): a string-typed provider name. -/
abbrev AIProvider := String

/-- chat.go line 587. -/
def OpenAIProvider : AIProvider := "openai"

/-- chat.go line 588. -/
def GeminiProvider : AIProvider := "gemini"

/-- services.UnifiedChatMessage (chat.go lines 609-612). -/
structure UnifiedChatMessage where
  role : String
  content : String
deriving Repr, DecidableEq

/-- services.UnifiedChatRequest (chat.go lines 600-607); an empty
preferredProvider means "not supplied". -/
structure UnifiedChatRequest where
  messages : List UnifiedChatMessage
  context : List String
  sessionID : String
  useKnowledgeBase : Bool
  systemPrompt : String
  preferredProvider : AIProvider
deriving Repr, DecidableEq

/-- services.UnifiedChatResponse (chat.go lines 614-620). -/
structure UnifiedChatResponse where
  message : String
  sources : List String
  sessionID : String
  provider : AIProvider
  model : String
deriving Repr, DecidableEq

/-- services.UnifiedAIService (chat.go lines 592-597); either adapter may be
absent. -/
structure UnifiedAIService where
  openAIService : Option OpenAIService
  geminiService : Option GeminiService
  primaryProvider : AIProvider
  fallbackProvider : AIProvider

/-- NewUnifiedAIService (chat.go lines 623-637): the fallback is Gemini
unless the primary is Gemini, in which case it is OpenAI. -/
def NewUnifiedAIService (o : Option OpenAIService) (g : Option GeminiService)
    (primaryProvider : AIProvider) : UnifiedAIService :=
  let fallbackProvider :=
    if primaryProvider == GeminiProvider then OpenAIProvider else GeminiProvider
  { openAIService := o, geminiService := g,
    primaryProvider := primaryProvider, fallbackProvider := fallbackProvider }

/-- UnifiedAIService.callOpenAI (chat.go lines 684-717): convert the request
(dropping the system prompt, which this adapter ignores), call the adapter,
and tag the model as "openai".  Role labels are forwarded unchanged. -/
def UnifiedAIService.callOpenAI (svc : UnifiedAIService)
    (req : UnifiedChatRequest) : Except String UnifiedChatResponse :=
  match svc.openAIService with
  | none => .error "OpenAI service not available"
  | some s =>
    let openAIReq : OpenAIChatRequest :=
      { messages := req.messages.map
          (fun msg => { role := msg.role, content := msg.content }),
        context := req.context, sessionID := req.sessionID,
        useKnowledgeBase := req.useKnowledgeBase }
    match s.ChatCompletion openAIReq with
    | .error e => .error e
    | .ok r =>
      .ok { message := r.message, sources := r.sources,
            sessionID := r.sessionID, provider := "", model := "openai" }

/-- UnifiedAIService.callGemini (chat.go lines 720-754). -/
def UnifiedAIService.callGemini (svc : UnifiedAIService)
    (req : UnifiedChatRequest) : Except String UnifiedChatResponse :=
  match svc.geminiService with
  | none => .error "Gemini service not available"
  | some s =>
    let geminiReq : GeminiChatRequest :=
      { messages := req.messages.map
          (fun msg => { role := msg.role, content := msg.content }),
        context := req.context, sessionID := req.sessionID,
        useKnowledgeBase := req.useKnowledgeBase,
        systemPrompt := req.systemPrompt }
    match s.ChatCompletion geminiReq with
    | .error e => .error e
    | .ok r =>
      .ok { message := r.message, sources := r.sources,
            sessionID := r.sessionID, provider := "", model := r.model }

/-- UnifiedAIService.callProvider (chat.go lines 672-681). -/
def UnifiedAIService.callProvider (svc : UnifiedAIService)
    (req : UnifiedChatRequest) (provider : AIProvider) :
    Except String UnifiedChatResponse :=
  if provider == OpenAIProvider then svc.callOpenAI req
  else if provider == GeminiProvider then svc.callGemini req
  else .error ("unsupported AI provider: " ++ provider)

/-- UnifiedAIService.ChatCompletion (chat.go lines 640-669), instrumented
with the list of providers attempted, in order. -/
def UnifiedAIService.ChatCompletionT (svc : UnifiedAIService)
    (req : UnifiedChatRequest) :
    Except String UnifiedChatResponse × List AIProvider :=
  let provider :=
    if req.preferredProvider != "" then req.preferredProvider
    else svc.primaryProvider
  match svc.callProvider req provider with
  | .ok response => (.ok { response with provider := provider }, [provider])
  | .error _ =>
    match svc.callProvider req svc.fallbackProvider with
    | .ok response =>
      (.ok { response with provider := svc.fallbackProvider },
       [provider, svc.fallbackProvider])
    | .error _ =>
      (.error ("both AI providers failed - primary: " ++ provider
          ++ ", fallback: " ++ svc.fallbackProvider),
       [provider, svc.fallbackProvider])

/-- UnifiedAIService.ChatCompletion (chat.go lines 640-669): the result of
the instrumented run. -/
def UnifiedAIService.ChatCompletion (svc : UnifiedAIService)
    (req : UnifiedChatRequest) : Except String UnifiedChatResponse :=
  (svc.ChatCompletionT req).1

/-- UnifiedAIService.GetAvailableProviders (chat.go lines 815-827). -/
def UnifiedAIService.GetAvailableProviders (svc : UnifiedAIService) :
    List AIProvider :=
  (if svc.openAIService.isSome then [OpenAIProvider] else [])
    ++ (if svc.geminiService.isSome then [GeminiProvider] else [])

/-- UnifiedAIService.SetPrimaryProvider (chat.go lines 830-842): set the
primary when the requested provider is available, else fail and leave the
service unchanged. -/
def UnifiedAIService.SetPrimaryProvider (svc : UnifiedAIService)
    (provider : AIProvider) : Except String Unit × UnifiedAIService :=
  if svc.GetAvailableProviders.contains provider then
    (.ok (), { svc with primaryProvider := provider })
  else
    (.error ("provider " ++ provider ++ " is not available"), svc)

/-- UnifiedAIService.GetPrimaryProvider (chat.go lines 845-847). -/
def UnifiedAIService.GetPrimaryProvider (svc : UnifiedAIService) : AIProvider :=
  svc.primaryProvider

/-! ## Chat orchestration core

`EnhancedChatService.ProcessChat` (src/unnamed/part_007 lines 238-374) and
the history assembly of the legacy `ChatService.ProcessChat`
(src/internal/services/chat.go lines 88-115). -/

/-- services.EnhancedChatRequest (part_007 lines 221-227); an absent session
id is `none`, an empty preferredProvider means "not supplied". -/
structure EnhancedChatRequest where
  message : String
  sessionID : Option Nat
  userID : Nat
  preferredProvider : AIProvider
  systemPrompt : String
deriving Repr, DecidableEq

/-- services.EnhancedChatResponse (part_007 lines 229-236); the CreatedAt
timestamp is not modelled. -/
structure EnhancedChatResponse where
  response : String
  sessionID : Nat
  sources : List String
  provider : AIProvider
  model : String
deriving Repr, DecidableEq

/-- Session creation (part_007 lines 386-399): a fresh session titled
"New Chat", active, owned by the requester. -/
def createSession (db : ChatDb) (userID : Nat) : ChatSession × ChatDb :=
  let session : ChatSession :=
    { id := db.nextSessionId, userID := userID, title := "New Chat",
      isActive := true }
  (session,
   { db with sessions := db.sessions ++ [session],
             nextSessionId := db.nextSessionId + 1 })

/-- EnhancedChatService.getOrCreateSession (part_007 lines 376-400): when a
session id is supplied, reuse the first active session with that id owned by
the caller; in every other case silently create a new one. -/
def getOrCreateSession (db : ChatDb) (userID : Nat) (sessionID : Option Nat) :
    ChatSession × ChatDb :=
  match sessionID with
  | some sid =>
    match db.sessions.find?
        (fun s => s.id == sid && s.userID == userID && s.isActive) with
    | some session => (session, db)
    | none => createSession db userID
  | none => createSession db userID

/-- EnhancedChatService.getRecentMessages (part_007 lines 402-409): the
session messages ordered by created_at DESC, capped at `limit`. -/
def getRecentMessages (db : ChatDb) (sessionID : Nat) (limit : Nat) :
    List ChatMessage :=
  ((sessionMessages db sessionID).reverse).take limit

/-- The history assembly of EnhancedChatService.ProcessChat (part_007 lines
294-317): iterate the recent messages in the order they were fetched
(newest first), skip the just-persisted inbound message by id, translate the
stored "assistant" role to "model", and append the current user message
last. -/
def EnhancedChatService.aiMessages (db : ChatDb) (sessionID newMsgId : Nat)
    (reqMessage : String) : List UnifiedChatMessage :=
  ((getRecentMessages db sessionID 10).filter
      (fun msg => msg.id != newMsgId)).map
    (fun msg =>
      { role := if msg.role == "assistant" then "model" else msg.role,
        content := msg.content })
  ++ [{ role := "user", content := reqMessage }]

/-- The history assembly of the legacy ChatService.ProcessChat (chat.go
lines 88-114): same fetch, but iterated backwards (index len-1 down to 0),
yielding chronological order, with role labels forwarded unchanged. -/
def ChatService.aiMessages (db : ChatDb) (sessionID newMsgId : Nat)
    (reqMessage : String) : List OpenAIChatMessage :=
  (((getRecentMessages db sessionID 10).reverse).filter
      (fun msg => msg.id != newMsgId)).map
    (fun msg => { role := msg.role, content := msg.content })
  ++ [{ role := "user", content := reqMessage }]

/-- EnhancedChatService.buildMetadata (part_007 lines 411-420); the JSON
object is modelled as the obvious string (a brace is written via its escape
code). -/
def buildMetadata (provider : AIProvider) (model : String)
    (sources : List String) : String :=
  "\x7b\"provider\":\"" ++ provider ++ "\",\"model\":\"" ++ model
    ++ "\",\"sources\":["
    ++ String.intercalate "," (sources.map (fun s => "\"" ++ s ++ "\""))
    ++ "]\x7d"

/-- Steps 1-2 of ProcessChat: resolve the session and persist the inbound
user message (part_007 lines 241-261). -/
def processChatState (db : ChatDb) (userID : Nat) (sessionID : Option Nat)
    (message : String) : ChatSession × ChatMessage × ChatDb :=
  let sdb := getOrCreateSession db userID sessionID
  let userMessage : ChatMessage :=
    { id := sdb.2.nextMessageId, sessionID := sdb.1.id, role := "user",
      content := message, metadata := "\x7b\x7d" }
  (sdb.1, userMessage, insertMessage sdb.2 userMessage)

/-- The history the second half of ProcessChat hands to the provider, as a
function of the request (steps 1, 2 and 5). -/
def assembledHistory (db : ChatDb) (userID : Nat) (sessionID : Option Nat)
    (message : String) : List UnifiedChatMessage :=
  let st := processChatState db userID sessionID message
  EnhancedChatService.aiMessages st.2.2 st.1.id st.2.1.id message

/-- EnhancedChatService.ProcessChat (part_007 lines 238-374): resolve the
session, persist the user message, search the knowledge base (top 3, errors
swallowed), build context strings "title: content", assemble the bounded
history, dispatch through the unified orchestrator, persist the assistant
reply, and assemble the response.  On provider failure the error is returned
with only the user message persisted. -/
def EnhancedChatService.ProcessChat (svc : UnifiedAIService)
    (kdb : KnowledgeDb) (db : ChatDb) (req : EnhancedChatRequest) :
    Except String EnhancedChatResponse × ChatDb :=
  let st := processChatState db req.userID req.sessionID req.message
  let session := st.1
  let userMessage := st.2.1
  let db2 := st.2.2
  let knowledgeEntries := SearchKnowledgeEntries kdb req.message 3
  let context := knowledgeEntries.map (fun e => e.title ++ ": " ++ e.content)
  let messages :=
    EnhancedChatService.aiMessages db2 session.id userMessage.id req.message
  let aiRequest : UnifiedChatRequest :=
    { messages := messages, context := context,
      sessionID := toString session.id,
      useKnowledgeBase := context.length != 0,
      systemPrompt := req.systemPrompt,
      preferredProvider := req.preferredProvider }
  match svc.ChatCompletion aiRequest with
  | .error e => (.error e, db2)
  | .ok aiResponse =>
    let assistantMessage : ChatMessage :=
      { id := db2.nextMessageId, sessionID := session.id, role := "assistant",
        content := aiResponse.message,
        metadata := buildMetadata aiResponse.provider aiResponse.model
          aiResponse.sources }
    let db3 := insertMessage db2 assistantMessage
    (.ok { response := aiResponse.message, sessionID := session.id,
           sources := knowledgeEntries.map (fun e => toString e.id),
           provider := aiResponse.provider, model := aiResponse.model },
     db3)

/-! ## C3: the two-shot provider policy -/

/-- C3 as amended: exactly one adapter call is attempted against the
selected provider (the preferred provider when supplied, else the configured
primary); on any error exactly one retry is attempted against the single
configured fallback provider — which is fixed at construction as the other
of the two relative to the configured primary, not relative to the provider
first attempted, so a preferred provider equal to the configured fallback is
retried against itself; there is no third attempt; when both attempts fail
the error names both providers; a successful response's provider field is
the provider that actually answered. -/
theorem chat_completion_two_shot (svc : UnifiedAIService)
    (req : UnifiedChatRequest) (o : Option OpenAIService)
    (g : Option GeminiService) (p : AIProvider) :
    ((NewUnifiedAIService o g p).primaryProvider = p
      ∧ (NewUnifiedAIService o g p).fallbackProvider
          = (if p == GeminiProvider then OpenAIProvider else GeminiProvider))
    ∧ (svc.ChatCompletionT req).2.head?
        = some (if req.preferredProvider != "" then req.preferredProvider
                else svc.primaryProvider)
    ∧ (svc.ChatCompletionT req).2.length ≤ 2
    ∧ (∀ r, svc.callProvider req
          (if req.preferredProvider != "" then req.preferredProvider
           else svc.primaryProvider) = .ok r →
        svc.ChatCompletionT req
          = (.ok { r with provider :=
                (if req.preferredProvider != "" then req.preferredProvider
                 else svc.primaryProvider) },
             [if req.preferredProvider != "" then req.preferredProvider
              else svc.primaryProvider]))
    ∧ (∀ e, svc.callProvider req
          (if req.preferredProvider != "" then req.preferredProvider
           else svc.primaryProvider) = .error e →
        (svc.ChatCompletionT req).2
          = [if req.preferredProvider != "" then req.preferredProvider
             else svc.primaryProvider, svc.fallbackProvider])
    ∧ (∀ e r, svc.callProvider req
          (if req.preferredProvider != "" then req.preferredProvider
           else svc.primaryProvider) = .error e →
        svc.callProvider req svc.fallbackProvider = .ok r →
        svc.ChatCompletion req = .ok { r with provider := svc.fallbackProvider })
    ∧ (∀ e e', svc.callProvider req
          (if req.preferredProvider != "" then req.preferredProvider
           else svc.primaryProvider) = .error e →
        svc.callProvider req svc.fallbackProvider = .error e' →
        svc.ChatCompletion req
          = .error ("both AI providers failed - primary: "
              ++ (if req.preferredProvider != "" then req.preferredProvider
                  else svc.primaryProvider)
              ++ ", fallback: " ++ svc.fallbackProvider)) := by
  refine ⟨⟨rfl, rfl⟩, ?_, ?_, ?_, ?_, ?_, ?_⟩
  · cases h1 : svc.callProvider req
        (if req.preferredProvider != "" then req.preferredProvider
         else svc.primaryProvider) with
    | ok r => simp only [UnifiedAIService.ChatCompletionT, h1]; rfl
    | error e =>
      cases h2 : svc.callProvider req svc.fallbackProvider with
      | ok r => simp only [UnifiedAIService.ChatCompletionT, h1, h2]; rfl
      | error e2 => simp only [UnifiedAIService.ChatCompletionT, h1, h2]; rfl
  · cases h1 : svc.callProvider req
        (if req.preferredProvider != "" then req.preferredProvider
         else svc.primaryProvider) with
    | ok r =>
      simp only [UnifiedAIService.ChatCompletionT, h1]
      simp
    | error e =>
      cases h2 : svc.callProvider req svc.fallbackProvider with
      | ok r =>
        simp only [UnifiedAIService.ChatCompletionT, h1, h2]
        simp
      | error e2 =>
        simp only [UnifiedAIService.ChatCompletionT, h1, h2]
        simp
  · intro r h1
    simp only [UnifiedAIService.ChatCompletionT, h1]
  · intro e h1
    cases h2 : svc.callProvider req svc.fallbackProvider with
    | ok r => simp only [UnifiedAIService.ChatCompletionT, h1, h2]
    | error e2 => simp only [UnifiedAIService.ChatCompletionT, h1, h2]
  · intro e r h1 h2
    simp only [UnifiedAIService.ChatCompletion,
      UnifiedAIService.ChatCompletionT, h1, h2]
  · intro e e' h1 h2
    simp only [UnifiedAIService.ChatCompletion,
      UnifiedAIService.ChatCompletionT, h1, h2]

/-- Orchestrator whose Gemini adapter always fails, primary OpenAI (so the
configured fallback is Gemini). -/
def geminiDownService : UnifiedAIService :=
  NewUnifiedAIService (some { complete := fun _ => .ok "pong" })
    (some { model := "gemini-1.5-pro", complete := fun _ _ _ => .error "quota" })
    OpenAIProvider

/-- Request preferring Gemini. -/
def reqPreferGemini : UnifiedChatRequest :=
  { messages := [{ role := "user", content := "hi" }], context := [],
    sessionID := "s", useKnowledgeBase := false, systemPrompt := "",
    preferredProvider := GeminiProvider }

/-- Counterexample to C3 as stated: with primary OpenAI and preferred
provider Gemini (the configured fallback), the first attempt and the retry
both hit Gemini — the retry is not "the other of the two providers than the
one first attempted", OpenAI is never attempted, and the failure message
names Gemini twice. -/
theorem preferred_fallback_same_provider_cex :
    (geminiDownService.ChatCompletionT reqPreferGemini).2
      = [GeminiProvider, GeminiProvider]
    ∧ (geminiDownService.ChatCompletionT reqPreferGemini).2.count OpenAIProvider
        = 0
    ∧ (geminiDownService.ChatCompletionT reqPreferGemini).1
        = .error "both AI providers failed - primary: gemini, fallback: gemini" :=
  ⟨rfl, rfl, rfl⟩

/-- Orchestrator for the C3 witness: OpenAI answers, no Gemini configured. -/
def openAIOkService : UnifiedAIService :=
  NewUnifiedAIService (some { complete := fun _ => .ok "hello" }) none
    OpenAIProvider

/-- Request without a preferred provider. -/
def reqNoPreference : UnifiedChatRequest :=
  { messages := [{ role := "user", content := "hi" }], context := [],
    sessionID := "s", useKnowledgeBase := false, systemPrompt := "",
    preferredProvider := "" }

/-- Witness for C3 (amended): a single successful attempt against the
selected provider, which the response's provider field reports. -/
theorem chat_completion_two_shot_witness :
    openAIOkService.ChatCompletionT reqNoPreference
      = (.ok { message := "hello", sources := [], sessionID := "s",
               provider := "openai", model := "openai" }, ["openai"]) := by
  have h := (chat_completion_two_shot openAIOkService reqNoPreference none none
    "openai").2.2.2.1
    { message := "hello", sources := [], sessionID := "s", provider := "",
      model := "openai" } rfl
  simpa using h

/-! ## C9: SetPrimaryProvider changes only the primary -/

/-- C9: a successful SetPrimaryProvider mutates only the primary-provider
field — services and the fallback fixed at construction are untouched — so
setting the primary to the configured fallback makes primary and fallback
equal, and a subsequent failing first attempt (without a preferred provider)
is retried against the very provider that just failed. -/
theorem set_primary_frame (svc : UnifiedAIService) (p : AIProvider) :
    ((svc.SetPrimaryProvider p).1 = .ok () →
      (svc.SetPrimaryProvider p).2 = { svc with primaryProvider := p })
    ∧ (svc.SetPrimaryProvider p).2.fallbackProvider = svc.fallbackProvider
    ∧ (svc.SetPrimaryProvider p).2.openAIService = svc.openAIService
    ∧ (svc.SetPrimaryProvider p).2.geminiService = svc.geminiService
    ∧ ((svc.SetPrimaryProvider svc.fallbackProvider).1 = .ok () →
        (svc.SetPrimaryProvider svc.fallbackProvider).2.primaryProvider
          = (svc.SetPrimaryProvider svc.fallbackProvider).2.fallbackProvider)
    ∧ (∀ (req : UnifiedChatRequest) e, req.preferredProvider = "" →
        (svc.SetPrimaryProvider svc.fallbackProvider).1 = .ok () →
        ((svc.SetPrimaryProvider svc.fallbackProvider).2).callProvider req
            svc.fallbackProvider = .error e →
        (((svc.SetPrimaryProvider svc.fallbackProvider).2).ChatCompletionT req).2
          = [svc.fallbackProvider, svc.fallbackProvider]) := by
  have hbranch : ∀ q : AIProvider,
      (svc.SetPrimaryProvider q).1 = .ok () →
      (svc.SetPrimaryProvider q).2 = { svc with primaryProvider := q } := by
    intro q h
    unfold UnifiedAIService.SetPrimaryProvider at h ⊢
    split at h
    · next hc => rw [if_pos hc]
    · exact absurd h (by simp)
  have hframe : ∀ q : AIProvider,
      (svc.SetPrimaryProvider q).2.fallbackProvider = svc.fallbackProvider
      ∧ (svc.SetPrimaryProvider q).2.openAIService = svc.openAIService
      ∧ (svc.SetPrimaryProvider q).2.geminiService = svc.geminiService := by
    intro q
    unfold UnifiedAIService.SetPrimaryProvider
    split <;> exact ⟨rfl, rfl, rfl⟩
  refine ⟨hbranch p, (hframe p).1, (hframe p).2.1, (hframe p).2.2, ?_, ?_⟩
  · intro h
    rw [hbranch svc.fallbackProvider h]
  · intro req e hpref hok hfail
    have h2 := hbranch svc.fallbackProvider hok
    rw [h2] at hfail ⊢
    cases hrest : UnifiedAIService.callProvider { svc with
        primaryProvider := svc.fallbackProvider } req svc.fallbackProvider with
    | ok r => rw [hrest] at hfail; exact absurd hfail (by simp)
    | error e2 =>
      simp [UnifiedAIService.ChatCompletionT, hpref, hrest]

/-- Orchestrator with both adapters configured but failing, primary
OpenAI. -/
def bothDownService : UnifiedAIService :=
  NewUnifiedAIService (some { complete := fun _ => .error "500" })
    (some { model := "gemini-1.5-pro", complete := fun _ _ _ => .error "503" })
    OpenAIProvider

/-- Witness for C9: after promoting the configured fallback (Gemini) to
primary, a failing call is retried against Gemini itself. -/
theorem set_primary_frame_witness :
    (((bothDownService.SetPrimaryProvider
        bothDownService.fallbackProvider).2).ChatCompletionT
        reqNoPreference).2 = [GeminiProvider, GeminiProvider] :=
  (set_primary_frame bothDownService GeminiProvider).2.2.2.2.2 reqNoPreference
    ("Gemini API error: 503") rfl rfl rfl

/-! ## C7: role labels forwarded to the providers -/

/-- Modelled from the spec: the label each provider's chat API expects for
the assistant's own turns — they differ between the two providers.  For
Gemini the source documents it ("model", GeminiChatMessage comment and
convertRole, document_upload.go 330 and 555-563); for OpenAI it is the
go-openai constant `ChatMessageRoleAssistant` ("assistant"), the value the
legacy ChatService stores via models.AssistantMessage. -/
def expectedOwnTurnLabel (p : AIProvider) : String :=
  if p == GeminiProvider then "model" else "assistant"

/-- C7 as amended: the orchestration core hardcodes the single label "model"
for stored assistant turns before dispatch, independent of the provider
dispatched to; the Gemini adapter's convertRole maps that to "model", the
label Gemini expects for its own turns, but the OpenAI adapter forwards role
labels unchanged, so an assistant turn dispatched to OpenAI arrives labelled
"model" — not the "assistant" label OpenAI expects. -/
theorem role_translation_spec (db : ChatDb) (sid nid : Nat) (text : String)
    (msg : ChatMessage) (r : OpenAIChatRequest) :
    (msg ∈ getRecentMessages db sid 10 → msg.id ≠ nid →
      msg.role = "assistant" →
      ({ role := "model", content := msg.content } : UnifiedChatMessage)
        ∈ EnhancedChatService.aiMessages db sid nid text)
    ∧ GeminiService.convertRole "model" = expectedOwnTurnLabel GeminiProvider
    ∧ GeminiService.convertRole "assistant"
        = expectedOwnTurnLabel GeminiProvider
    ∧ (openAIApiMessages r).map (fun m => m.role)
        = "system" :: r.messages.map (fun m => m.role)
    ∧ "model" ≠ expectedOwnTurnLabel OpenAIProvider := by
  refine ⟨?_, by decide, by decide, by simp [openAIApiMessages], by decide⟩
  intro hmem hid hrole
  unfold EnhancedChatService.aiMessages
  apply List.mem_append_left
  apply List.mem_map.mpr
  refine ⟨msg, ?_, ?_⟩
  · apply List.mem_filter.mpr
    exact ⟨hmem, by simpa using hid⟩
  · rw [hrole]
    rfl

/-- Chat store with one complete prior exchange in session 1 (user "hi",
assistant "hello there"). -/
def dbOneExchange : ChatDb :=
  { sessions := [{ id := 1, userID := 7, title := "New Chat", isActive := true }],
    messages :=
      [{ id := 1, sessionID := 1, role := "user", content := "hi",
         metadata := "\x7b\x7d" },
       { id := 2, sessionID := 1, role := "assistant", content := "hello there",
         metadata := "\x7b\x7d" }],
    nextSessionId := 2, nextMessageId := 3 }

/-- `dbOneExchange` right after ProcessChat persisted the inbound message
"next". -/
def dbOneExchange' : ChatDb :=
  insertMessage dbOneExchange
    { id := 3, sessionID := 1, role := "user", content := "next",
      metadata := "\x7b\x7d" }

/-- Follow-up request reusing session 1. -/
def reqNext : EnhancedChatRequest :=
  { message := "next", sessionID := some 1, userID := 7,
    preferredProvider := "", systemPrompt := "" }

/-- OpenAI-only orchestrator whose adapter echoes back the role labels it
receives on the wire, comma-separated. -/
def roleProbeService : UnifiedAIService :=
  NewUnifiedAIService
    (some { complete :=
      (fun msgs => Except.ok (String.intercalate "," (msgs.map (fun m => m.role)))) })
    none OpenAIProvider

/-- Counterexample to C7 as stated: running the actual ProcessChat path of a
follow-up turn against OpenAI, the labels that reach the OpenAI API are
"system, model, user, user" — the stored assistant turn arrives labelled
"model", not the "assistant" label OpenAI expects for its own turns. -/
theorem openai_role_label_cex :
    (EnhancedChatService.ProcessChat roleProbeService
        { entries := [], embeddings := [] } dbOneExchange reqNext).1
      = .ok { response := "system,model,user,user", sessionID := 1,
              sources := [], provider := "openai", model := "openai" }
    ∧ expectedOwnTurnLabel OpenAIProvider = "assistant" := ⟨rfl, rfl⟩

/-- Witness for C7 (amended) on the concrete one-exchange store. -/
theorem role_translation_spec_witness :
    ({ role := "model", content := "hello there" } : UnifiedChatMessage)
      ∈ EnhancedChatService.aiMessages dbOneExchange' 1 3 "next" :=
  (role_translation_spec dbOneExchange' 1 3 "next"
    { id := 2, sessionID := 1, role := "assistant", content := "hello there",
      metadata := "\x7b\x7d" }
    { messages := [], context := [], sessionID := "", useKnowledgeBase := false }).1
    (by decide) (by decide) rfl

/-! ## C4: the bounded history window and its order -/

/-- C4 as amended: in both ProcessChat implementations the provider receives
at most 10 historical messages plus the current one, with the current
inbound message appended last; the legacy ChatService presents the
historical part in chronological (oldest-first) order, while
EnhancedChatService forwards it in the fetched newest-first order without
reversing. -/
theorem history_window_spec (db : ChatDb) (sid nid : Nat) (text : String) :
    (EnhancedChatService.aiMessages db sid nid text).length ≤ 11
    ∧ (ChatService.aiMessages db sid nid text).length ≤ 11
    ∧ (EnhancedChatService.aiMessages db sid nid text).getLast?
        = some { role := "user", content := text }
    ∧ (ChatService.aiMessages db sid nid text).getLast?
        = some { role := "user", content := text }
    ∧ ((ChatService.aiMessages db sid nid text).dropLast.map
        (fun m => m.content)).Sublist
        ((sessionMessages db sid).map (fun m => m.content))
    ∧ ((EnhancedChatService.aiMessages db sid nid text).dropLast.map
        (fun m => m.content)).Sublist
        (((sessionMessages db sid).reverse).map (fun m => m.content))
    ∧ (EnhancedChatService.aiMessages db sid nid text).dropLast.length ≤ 10
    ∧ (ChatService.aiMessages db sid nid text).dropLast.length ≤ 10 := by
  have hrecent : (getRecentMessages db sid 10).length ≤ 10 :=
    List.length_take_le 10 _
  have hftake : ∀ (l : List ChatMessage) (p : ChatMessage → Bool),
      (l.filter p).length ≤ l.length := fun l p => List.length_filter_le p l
  have hsubE : (getRecentMessages db sid 10).filter (fun m => m.id != nid)
      |>.Sublist ((sessionMessages db sid).reverse) := by
    exact (List.filter_sublist _).trans (List.take_sublist 10 _)
  have hsubC : ((getRecentMessages db sid 10).reverse).filter
      (fun m => m.id != nid) |>.Sublist (sessionMessages db sid) := by
    refine (List.filter_sublist _).trans ?_
    have h1 : (getRecentMessages db sid 10).Sublist
        ((sessionMessages db sid).reverse) := List.take_sublist 10 _
    have h2 := h1.reverse
    rwa [List.reverse_reverse] at h2
  refine ⟨?_, ?_, ?_, ?_, ?_, ?_, ?_, ?_⟩
  · unfold EnhancedChatService.aiMessages
    rw [List.length_append, List.length_map]
    have := (hftake (getRecentMessages db sid 10) (fun m => m.id != nid)).trans
      hrecent
    simpa using Nat.add_le_add this (Nat.le_refl 1)
  · unfold ChatService.aiMessages
    rw [List.length_append, List.length_map]
    have h0 : ((getRecentMessages db sid 10).reverse.filter
        (fun m => m.id != nid)).length ≤ 10 := by
      refine (hftake _ _).trans ?_
      rw [List.length_reverse]
      exact hrecent
    simpa using Nat.add_le_add h0 (Nat.le_refl 1)
  · unfold EnhancedChatService.aiMessages
    rw [List.getLast?_concat]
  · unfold ChatService.aiMessages
    rw [List.getLast?_concat]
  · unfold ChatService.aiMessages
    rw [List.dropLast_concat, List.map_map]
    exact hsubC.map (fun m => m.content)
  · unfold EnhancedChatService.aiMessages
    rw [List.dropLast_concat, List.map_map]
    exact hsubE.map (fun m => m.content)
  · unfold EnhancedChatService.aiMessages
    rw [List.dropLast_concat, List.length_map]
    exact (hftake _ _).trans hrecent
  · unfold ChatService.aiMessages
    rw [List.dropLast_concat, List.length_map]
    refine (hftake _ _).trans ?_
    rw [List.length_reverse]
    exact hrecent

/-- Counterexample to C4 as stated: with the prior exchange "hi" (user) then
"hello there" (assistant), the history EnhancedChatService hands to the
provider is newest-first — ["hello there", "hi", "next"] — not the claimed
chronological ["hi", "hello there", "next"]. -/
theorem enhanced_history_order_cex :
    (EnhancedChatService.aiMessages dbOneExchange' 1 3 "next").map
        (fun m => m.content) = ["hello there", "hi", "next"]
    ∧ (EnhancedChatService.aiMessages dbOneExchange' 1 3 "next").map
        (fun m => m.content) ≠ ["hi", "hello there", "next"] := by
  constructor
  · rfl
  · decide

/-! ## C5: stale or foreign session ids yield a fresh session -/

theorem getOrCreateSession_sessions_const (db : ChatDb) (userID : Nat)
    (sid? : Option Nat) :
    (getOrCreateSession db userID sid?).2.messages = db.messages
    ∧ (getOrCreateSession db userID sid?).2.nextMessageId = db.nextMessageId := by
  unfold getOrCreateSession createSession
  cases sid? with
  | none => exact ⟨rfl, rfl⟩
  | some sid =>
    dsimp only
    cases h : db.sessions.find?
        (fun s => s.id == sid && s.userID == userID && s.isActive) with
    | none => exact ⟨rfl, rfl⟩
    | some s => exact ⟨rfl, rfl⟩

/-- C5: when no session id is supplied, or the supplied id does not resolve
to an active session of the requesting user, session resolution silently
creates a fresh session — owned by the requester, titled "New Chat",
active — and a successful ProcessChat reports that new session's id. -/
theorem stale_session_new_session (svc : UnifiedAIService) (kdb : KnowledgeDb)
    (db : ChatDb) (req : EnhancedChatRequest)
    (hmiss : ∀ sid, req.sessionID = some sid →
      db.sessions.find?
        (fun s => s.id == sid && s.userID == req.userID && s.isActive) = none) :
    (getOrCreateSession db req.userID req.sessionID).1.title = "New Chat"
    ∧ (getOrCreateSession db req.userID req.sessionID).1.isActive = true
    ∧ (getOrCreateSession db req.userID req.sessionID).1.userID = req.userID
    ∧ (getOrCreateSession db req.userID req.sessionID).1.id = db.nextSessionId
    ∧ (getOrCreateSession db req.userID req.sessionID).1
        ∈ (getOrCreateSession db req.userID req.sessionID).2.sessions
    ∧ (∀ (resp : EnhancedChatResponse) (db' : ChatDb),
        EnhancedChatService.ProcessChat svc kdb db req = (.ok resp, db') →
        resp.sessionID = db.nextSessionId) := by
  have hres : getOrCreateSession db req.userID req.sessionID
      = createSession db req.userID := by
    unfold getOrCreateSession
    cases hs : req.sessionID with
    | none => rfl
    | some sid =>
      dsimp only
      rw [hmiss sid hs]
  refine ⟨by rw [hres]; rfl, by rw [hres]; rfl, by rw [hres]; rfl,
    by rw [hres]; rfl, by rw [hres]; simp [createSession], ?_⟩
  intro resp db' h
  simp only [EnhancedChatService.ProcessChat, processChatState, hres] at h
  split at h
  · exact absurd h (by simp)
  · next aiResp heq =>
    rw [Prod.mk.injEq, Except.ok.injEq] at h
    obtain ⟨h1, _⟩ := h
    rw [← h1]
    rfl

/-- Chat store for the C5/C6 witnesses: one active session (id 1) owned by
user 7 and no messages. -/
def dbFresh : ChatDb :=
  { sessions := [{ id := 1, userID := 7, title := "New Chat", isActive := true }],
    messages := [], nextSessionId := 2, nextMessageId := 1 }

/-- Request of user 9 presenting session id 1, which belongs to user 7. -/
def reqForeign : EnhancedChatRequest :=
  { message := "hello", sessionID := some 1, userID := 9,
    preferredProvider := "", systemPrompt := "" }

/-! ## C8: dual provider failure persists no assistant message -/

theorem callProvider_err (svc : UnifiedAIService)
    (hO : ∀ r, ∃ e, svc.callOpenAI r = .error e)
    (hG : ∀ r, ∃ e, svc.callGemini r = .error e)
    (r : UnifiedChatRequest) (p : AIProvider) :
    ∃ e, svc.callProvider r p = .error e := by
  unfold UnifiedAIService.callProvider
  by_cases h1 : p == OpenAIProvider
  · rw [if_pos h1]
    exact hO r
  · rw [if_neg h1]
    by_cases h2 : p == GeminiProvider
    · rw [if_pos h2]
      exact hG r
    · rw [if_neg h2]
      exact ⟨_, rfl⟩

theorem chatCompletion_err (svc : UnifiedAIService)
    (hO : ∀ r, ∃ e, svc.callOpenAI r = .error e)
    (hG : ∀ r, ∃ e, svc.callGemini r = .error e)
    (r : UnifiedChatRequest) :
    ∃ e, svc.ChatCompletion r = .error e := by
  obtain ⟨e1, h1⟩ := callProvider_err svc hO hG r
    (if r.preferredProvider != "" then r.preferredProvider
     else svc.primaryProvider)
  obtain ⟨e2, h2⟩ := callProvider_err svc hO hG r svc.fallbackProvider
  refine ⟨"both AI providers failed - primary: "
      ++ (if r.preferredProvider != "" then r.preferredProvider
          else svc.primaryProvider)
      ++ ", fallback: " ++ svc.fallbackProvider, ?_⟩
  simp only [UnifiedAIService.ChatCompletion, UnifiedAIService.ChatCompletionT,
    h1, h2]

/-- C8: when both adapters fail, ProcessChat returns an error and the final
store is exactly the store right after the inbound user message was
persisted — the user message is stored and no assistant message was added
for the turn. -/
theorem dual_failure_no_assistant_persisted (svc : UnifiedAIService)
    (kdb : KnowledgeDb) (db : ChatDb) (req : EnhancedChatRequest)
    (hO : ∀ r, ∃ e, svc.callOpenAI r = .error e)
    (hG : ∀ r, ∃ e, svc.callGemini r = .error e) :
    (∃ e, EnhancedChatService.ProcessChat svc kdb db req
      = (.error e,
         insertMessage (getOrCreateSession db req.userID req.sessionID).2
           { id := (getOrCreateSession db req.userID req.sessionID).2.nextMessageId,
             sessionID := (getOrCreateSession db req.userID req.sessionID).1.id,
             role := "user", content := req.message, metadata := "\x7b\x7d" }))
    ∧ (EnhancedChatService.ProcessChat svc kdb db req).2.messages.filter
        (fun m => m.role == "assistant")
        = db.messages.filter (fun m => m.role == "assistant")
    ∧ ({ id := (getOrCreateSession db req.userID req.sessionID).2.nextMessageId,
         sessionID := (getOrCreateSession db req.userID req.sessionID).1.id,
         role := "user", content := req.message,
         metadata := "\x7b\x7d" } : ChatMessage)
        ∈ (EnhancedChatService.ProcessChat svc kdb db req).2.messages := by
  have key := chatCompletion_err svc hO hG
  have hmain : ∃ e, EnhancedChatService.ProcessChat svc kdb db req
      = (.error e,
         insertMessage (getOrCreateSession db req.userID req.sessionID).2
           { id := (getOrCreateSession db req.userID req.sessionID).2.nextMessageId,
             sessionID := (getOrCreateSession db req.userID req.sessionID).1.id,
             role := "user", content := req.message,
             metadata := "\x7b\x7d" }) := by
    unfold EnhancedChatService.ProcessChat processChatState
    dsimp only
    split
    · next e heq => exact ⟨e, rfl⟩
    · next aiResp heq =>
      obtain ⟨e, he⟩ := key _
      rw [he] at heq
      exact absurd heq (by simp)
  obtain ⟨e, he⟩ := hmain
  have hmsgs : (getOrCreateSession db req.userID req.sessionID).2.messages
      = db.messages :=
    (getOrCreateSession_sessions_const db req.userID req.sessionID).1
  refine ⟨⟨e, he⟩, ?_, ?_⟩
  · rw [he]
    simp only [insertMessage, List.filter_append, hmsgs]
    simp
  · rw [he]
    simp [insertMessage, hmsgs]

theorem callGemini_always_err (svc : UnifiedAIService) (g : GeminiService)
    (hg : svc.geminiService = some g)
    (hfail : ∀ a b c, ∃ e, g.complete a b c = .error e) :
    ∀ r, ∃ e, svc.callGemini r = .error e := by
  intro r
  unfold UnifiedAIService.callGemini
  rw [hg]
  unfold GeminiService.ChatCompletion
  dsimp only
  cases hl : (r.messages.map fun msg =>
      ({ role := msg.role, content := msg.content } : GeminiChatMessage)).getLast? with
  | none => exact ⟨_, rfl⟩
  | some cur =>
    dsimp only
    obtain ⟨e, he⟩ := hfail (buildSystemInstruction r.context r.systemPrompt)
      (geminiApiHistory
        { messages := r.messages.map fun msg =>
            ({ role := msg.role, content := msg.content } : GeminiChatMessage),
          context := r.context, sessionID := r.sessionID,
          useKnowledgeBase := r.useKnowledgeBase,
          systemPrompt := r.systemPrompt })
      cur.content
    rw [he]
    exact ⟨_, rfl⟩

/-- Witness for C8 on a concrete store: both adapters down. -/
theorem dual_failure_no_assistant_persisted_witness :
    (EnhancedChatService.ProcessChat bothDownService
        { entries := [], embeddings := [] } dbOneExchange reqNext).2.messages.filter
        (fun m => m.role == "assistant")
      = dbOneExchange.messages.filter (fun m => m.role == "assistant") :=
  (dual_failure_no_assistant_persisted bothDownService
    { entries := [], embeddings := [] } dbOneExchange reqNext
    (fun _ => ⟨"OpenAI API error: 500", rfl⟩)
    (callGemini_always_err bothDownService
      { model := "gemini-1.5-pro", complete := fun _ _ _ => .error "503" }
      rfl (fun _ _ _ => ⟨"503", rfl⟩))).2.1

/-! ## C6: the inbound message is excluded by identity, not by content -/

/-- C6: send two requests with the same text `t` in the same session; the
history assembled while processing the second request (the part before the
appended current message) contains exactly one message with content `t` —
the first turn's stored user message — neither zero (which dropping by
role or content would produce) nor two (the freshly persisted copy is
excluded by its id). -/
theorem history_excludes_by_identity (svc : UnifiedAIService)
    (kdb : KnowledgeDb) (db0 : ChatDb) (sess : ChatSession) (sid uid : Nat)
    (t pp sp : String) (resp1 : EnhancedChatResponse) (db1 : ChatDb)
    (hfind : db0.sessions.find?
      (fun s => s.id == sid && s.userID == uid && s.isActive) = some sess)
    (hempty : sessionMessages db0 sess.id = [])
    (hrun1 : EnhancedChatService.ProcessChat svc kdb db0
      { message := t, sessionID := some sid, userID := uid,
        preferredProvider := pp, systemPrompt := sp } = (.ok resp1, db1))
    (hne : resp1.response ≠ t) :
    ((assembledHistory db1 uid (some sid) t).dropLast).countP
      (fun m => m.content == t) = 1 := by
  have hgs : getOrCreateSession db0 uid (some sid) = (sess, db0) := by
    unfold getOrCreateSession
    dsimp only
    rw [hfind]
  simp only [EnhancedChatService.ProcessChat, processChatState, hgs] at hrun1
  split at hrun1
  · exact absurd hrun1 (by simp)
  · next aiResp heq =>
    rw [Prod.mk.injEq, Except.ok.injEq] at hrun1
    obtain ⟨hresp, hdb1⟩ := hrun1
    have hmsg : aiResp.message ≠ t := by
      intro hc
      apply hne
      rw [← hresp, hc]
    rw [← hdb1]
    -- run 2: the store now holds the user message and the assistant reply
    unfold assembledHistory processChatState
    have hsess2 : (insertMessage (insertMessage db0
        { id := db0.nextMessageId, sessionID := sess.id, role := "user",
          content := t, metadata := "\x7b\x7d" })
        { id := (insertMessage db0
            { id := db0.nextMessageId, sessionID := sess.id, role := "user",
              content := t, metadata := "\x7b\x7d" }).nextMessageId,
          sessionID := sess.id, role := "assistant",
          content := aiResp.message,
          metadata := buildMetadata aiResp.provider aiResp.model
            aiResp.sources }).sessions = db0.sessions := rfl
    have hgs2 : getOrCreateSession (insertMessage (insertMessage db0
        { id := db0.nextMessageId, sessionID := sess.id, role := "user",
          content := t, metadata := "\x7b\x7d" })
        { id := (insertMessage db0
            { id := db0.nextMessageId, sessionID := sess.id, role := "user",
              content := t, metadata := "\x7b\x7d" }).nextMessageId,
          sessionID := sess.id, role := "assistant",
          content := aiResp.message,
          metadata := buildMetadata aiResp.provider aiResp.model
            aiResp.sources }) uid (some sid)
        = (sess, insertMessage (insertMessage db0
        { id := db0.nextMessageId, sessionID := sess.id, role := "user",
          content := t, metadata := "\x7b\x7d" })
        { id := (insertMessage db0
            { id := db0.nextMessageId, sessionID := sess.id, role := "user",
              content := t, metadata := "\x7b\x7d" }).nextMessageId,
          sessionID := sess.id, role := "assistant",
          content := aiResp.message,
          metadata := buildMetadata aiResp.provider aiResp.model
            aiResp.sources }) := by
      unfold getOrCreateSession
      dsimp only
      rw [hsess2, hfind]
    rw [hgs2]
    unfold EnhancedChatService.aiMessages getRecentMessages sessionMessages
    simp only [insertMessage, List.filter_append]
    have hempty' : db0.messages.filter
        (fun m => m.sessionID == sess.id) = [] := hempty
    rw [hempty']
    have hid1 : (db0.nextMessageId != db0.nextMessageId + 1 + 1) = true := by
      simp only [bne_iff_ne, ne_eq]
      omega
    have hid2 : (db0.nextMessageId + 1 != db0.nextMessageId + 1 + 1) = true := by
      simp only [bne_iff_ne, ne_eq]
      omega
    have hid3 : (db0.nextMessageId + 1 + 1 != db0.nextMessageId + 1 + 1) = false := by
      simp only [bne_eq_false_iff_eq]
    have hcne : (aiResp.message == t) = false := by
      simp only [beq_eq_false_iff_ne, ne_eq]
      exact hmsg
    simp [hid1, hid2, hid3, List.dropLast_concat, List.countP_cons, hcne]

/-- Witness for C6: the same text "ping" sent twice in session 1; the second
assembled history contains exactly one copy. -/
theorem history_excludes_by_identity_witness :
    ((assembledHistory (EnhancedChatService.ProcessChat openAIOkService
        { entries := [], embeddings := [] } dbFresh
        { message := "ping", sessionID := some 1, userID := 7,
          preferredProvider := "", systemPrompt := "" }).2 7 (some 1)
        "ping").dropLast).countP (fun m => m.content == "ping") = 1 :=
  history_excludes_by_identity openAIOkService
    { entries := [], embeddings := [] } dbFresh
    { id := 1, userID := 7, title := "New Chat", isActive := true } 1 7
    "ping" "" "" _ _ rfl rfl rfl (by decide)

/-- Witness for C5: a foreign session id yields a fresh session and the
response carries the new session's id. -/
theorem stale_session_new_session_witness :
    (getOrCreateSession dbFresh reqForeign.userID reqForeign.sessionID).1.title
      = "New Chat"
    ∧ (∀ (resp : EnhancedChatResponse) (db' : ChatDb),
        EnhancedChatService.ProcessChat openAIOkService
          { entries := [], embeddings := [] } dbFresh reqForeign
          = (.ok resp, db') →
        resp.sessionID = dbFresh.nextSessionId) :=
  ⟨(stale_session_new_session openAIOkService
      { entries := [], embeddings := [] } dbFresh reqForeign
      (fun sid hs => by cases hs; decide)).1,
   (stale_session_new_session openAIOkService
      { entries := [], embeddings := [] } dbFresh reqForeign
      (fun sid hs => by cases hs; decide)).2.2.2.2.2⟩

end Tic
